import Mathlib

/-!
Verification development for the `sampc` SAMP client wrapper.

The Python source (`sampc.py`) defines a `Client` class that exchanges
tables and row selections with SAMP applications.  The stateful handler
methods are embedded as explicit state-passing functions over a
`ClientState` record; Python exceptions (KeyError, parse failures) are
modelled with `Option` (`none` = the handler raised and no further
statements of its body executed).  Message-type pattern matching lives in
the external `sampy` library, so it is modelled from the specification.
-/

/-- Values appearing in a SAMP message's `params` mapping: strings or
lists of strings (the only shapes the embedded handlers inspect). -/
inductive SValue where
  | str : String → SValue
  | list : List String → SValue
deriving DecidableEq, Repr

/-- A SAMP params mapping, as an association list in construction order. -/
abbrev Params := List (String × SValue)

/-- Dynamic Python values stored in the session-local selection slots
`crow` (initially `None`) and `rowlist` (initially `{}`). -/
inductive PyVal where
  | none
  | int : Int → PyVal
  | intList : List Int → PyVal
  | emptyDict
deriving DecidableEq, Repr

/-- The record stored in `self.lastMessage` by the handlers. -/
structure LastMessage where
  label : String
  privateKey : String
  senderID : String
  mType : String
  params : Params
  extra : Params
deriving DecidableEq, Repr

/-- The mutable session-local state of a `Client` touched by the
embedded methods: `tables`, `rowlist`, `crow`, `lastMessage`. -/
structure ClientState where
  tables : List (String × Params)
  rowlist : PyVal
  crow : PyVal
  lastMessage : Option LastMessage
deriving DecidableEq, Repr

/-- The state right after `Client.__init__`: `tables = {}`,
`rowlist = {}`, `crow = None`, `lastMessage = None`. -/
def initClient : ClientState :=
  { tables := [], rowlist := PyVal.emptyDict, crow := PyVal.none,
    lastMessage := Option.none }

/-- Accumulates the value of a run of decimal digits; any non-digit
character aborts the parse. -/
def decDigitsAux : List Char → Nat → Option Nat
  | [], acc => Option.some acc
  | c :: cs, acc =>
      if c.isDigit then decDigitsAux cs (acc * 10 + (c.toNat - 48))
      else Option.none

/-- Parses an optionally-signed decimal string to an arbitrary-precision
integer, as Python's `int(s)` does; `none` models the ValueError raised
on unparseable input. -/
def pyIntParse (s : String) : Option Int :=
  match s.data with
  | [] => Option.none
  | '-' :: cs =>
      if cs.isEmpty then Option.none
      else (decDigitsAux cs 0).map (fun n => -(n : Int))
  | '+' :: cs =>
      if cs.isEmpty then Option.none
      else (decDigitsAux cs 0).map (fun n => (n : Int))
  | cs => (decDigitsAux cs 0).map (fun n => (n : Int))

/-- Smallest value of numpy's `intp` type, a signed 64-bit C long on the
64-bit platforms the package runs on. -/
def intpMin : Int := -(2 ^ 63)

/-- Largest value of numpy's `intp` type (signed 64-bit C long). -/
def intpMax : Int := 2 ^ 63 - 1

/-- The conversion `np.intp` performs on a single decimal string: the
Python integer parse followed by the fixed-width range check of the
`intp` C-long type; `none` models the ValueError raised on unparseable
input and the OverflowError raised outside the `intp` range. -/
def pyInt (s : String) : Option Int :=
  match pyIntParse s with
  | Option.some n =>
      if intpMin ≤ n ∧ n ≤ intpMax then Option.some n else Option.none
  | Option.none => Option.none

/-- Models `np.intp(v)` as used in `getrows`: parsing a decimal string
to an integer scalar, or a list of decimal strings to an integer array. -/
def npIntp : SValue → Option PyVal
  | SValue.str s => (pyInt s).map PyVal.int
  | SValue.list ss => (ss.mapM pyInt).map PyVal.intList

/-- The `lastMessage` record `getrows` stores (label "Selected Rows"). -/
def selectedRowsMsg (privateKey senderID mType : String)
    (params extra : Params) : LastMessage :=
  ⟨"Selected Rows", privateKey, senderID, mType, params, extra⟩

/-- The `if mType == …` dispatch inside `Client.getrows`:
`table.highlight.row` stores `np.intp(params['row'])` in `crow`;
`table.select.rowList` evaluates `len(idx)` for its status line
(sampc.py line 432) before assigning, so only an elementwise list
conversion — a sized array — reaches `rowlist`, while a scalar from a
single-string `row-list` raises TypeError at `len`; any other mType
changes nothing.  `none` models a raised KeyError, conversion error or
TypeError. -/
def getrowsBranch (st : ClientState) (mType : String) (params : Params) :
    Option ClientState :=
  if mType == "table.highlight.row" then
    match List.lookup "row" params with
    | Option.some v =>
        match npIntp v with
        | Option.some idx => Option.some { st with crow := idx }
        | Option.none => Option.none
    | Option.none => Option.none
  else if mType == "table.select.rowList" then
    match List.lookup "row-list" params with
    | Option.some v =>
        match npIntp v with
        | Option.some (PyVal.intList ns) =>
            Option.some { st with rowlist := PyVal.intList ns }
        | _ => Option.none
    | Option.none => Option.none
  else
    Option.some st

/-- Embeds `Client.getrows` (sampc.py lines 417-441).  The body first
evaluates `params['url']` (a KeyError if absent), then runs the mType
dispatch, and finally records `lastMessage`; `none` models an exception
escaping the method, in which case no assignment it would have made
later takes place. -/
def getrows (st : ClientState) (privateKey senderID mType : String)
    (params extra : Params) : Option ClientState :=
  match List.lookup "url" params with
  | Option.none => Option.none
  | Option.some _filen =>
      match getrowsBranch st mType params with
      | Option.none => Option.none
      | Option.some st' =>
          Option.some { st' with
            lastMessage := Option.some
              (selectedRowsMsg privateKey senderID mType params extra) }

/-- The reply `receiveCall` sends back through `self.client.ereply`. -/
structure Reply where
  msgID : String
  status : String
  result : Params
deriving DecidableEq, Repr

/-- The value of `sampy.SAMP_STATUS_OK`. -/
def SAMP_STATUS_OK : String := "samp.ok"

/-- The reply issued at the end of `Client.receiveCall`:
`ereply(msgID, SAMP_STATUS_OK, result={'txt': 'printed'})`. -/
def okReply (msgID : String) : Reply :=
  ⟨msgID, SAMP_STATUS_OK, [("txt", SValue.str "printed")]⟩

/-- Python `dict` update `self.tables[k] = v`: the association list with
`k` now bound to `v` (lookups see the newest binding first). -/
def insertTable (ts : List (String × Params)) (k : String) (v : Params) :
    List (String × Params) :=
  (k, v) :: ts

/-- Embeds `Client.receiveCall` (sampc.py lines 229-242).  On
`table.load.fits` it stores the envelope params under key
`params['name']` (a KeyError if absent; a TypeError if unhashable, i.e.
not a string); on `table.select.rowList` it delegates to `getrows`;
any other mType only prints.  When no exception escapes, the method
ends by replying `okReply msgID`; `none` models an escaped exception,
in which case no reply is ever issued. -/
def receiveCall (st : ClientState) (privateKey senderID msgID mType : String)
    (params extra : Params) : Option (ClientState × Reply) :=
  let branch : Option ClientState :=
    if mType == "table.load.fits" then
      match List.lookup "name" params with
      | Option.some (SValue.str name) =>
          Option.some { st with tables := insertTable st.tables name params }
      | _ => Option.none
    else if mType == "table.select.rowList" then
      getrows st privateKey senderID mType params extra
    else
      Option.some st
  match branch with
  | Option.none => Option.none
  | Option.some st' => Option.some (st', okReply msgID)

/-- Embeds `Client.receiveNotification`: prints and records the message. -/
def receiveNotification (st : ClientState) (privateKey senderID mType : String)
    (params extra : Params) : ClientState :=
  { st with lastMessage :=
      Option.some ⟨"Notification", privateKey, senderID, mType, params, extra⟩ }

/-- The handler callbacks `Client.__init__` can bind. -/
inductive Handler where
  | getrows
  | receiveNotification
  | receiveCall
deriving DecidableEq, Repr

/-- The notification bindings made in `Client.__init__` (lines 194-196),
in registration order. -/
def notificationBindings : List (String × Handler) :=
  [("table.highlight.row", Handler.getrows),
   ("table.load.fits", Handler.receiveNotification),
   ("samp.app.*", Handler.receiveNotification)]

/-- The call bindings made in `Client.__init__` (lines 198-200), in
registration order. -/
def callBindings : List (String × Handler) :=
  [("samp.app.*", Handler.receiveCall),
   ("table.load.fits", Handler.receiveCall),
   ("table.select.rowList", Handler.receiveCall)]

/-- Embeds `Client.get` (sampc.py lines 280-295).  `fetchRead` abstracts
`urllib.urlretrieve` followed by `Table.read` (external I/O; `none`
models a failure there).  For a key absent from `tables`, the Python
body falls through and returns `None` with no fetch; polymorphism in
`α` witnesses that the client never inspects the fetched data. -/
def Client.get {α : Type} (fetchRead : String → Option α)
    (st : ClientState) (k : String) : Option (Option α) :=
  match List.lookup k st.tables with
  | Option.some cTab =>
      match List.lookup "url" cTab with
      | Option.some (SValue.str u) =>
          match fetchRead u with
          | Option.some d => Option.some (Option.some d)
          | Option.none => Option.none
      | _ => Option.none
  | Option.none => Option.some Option.none

/-- Embeds `Client.__getitem__`: `c[k]` simply returns `self.get(k)`. -/
def Client.getitem {α : Type} (fetchRead : String → Option α)
    (st : ClientState) (k : String) : Option (Option α) :=
  Client.get fetchRead st k

/-- Python slice `k[-5:]`: the last five characters (the whole string
when it is shorter). -/
def pyLast5 (s : String) : String :=
  String.mk (s.data.drop (s.data.length - 5))

/-- The filename normalization shared by `Client.send` (line 316) and
`Client.sendrows` (line 458): `if k[-5:] != '.fits': k += '.fits'`. -/
def normFits (k : String) : String :=
  if pyLast5 k ≠ ".fits" then k ++ ".fits" else k

/-- An outbound SAMP message: `{'samp.mtype': …, 'samp.params': …}`. -/
structure Message where
  mtype : String
  params : Params
deriving DecidableEq, Repr

/-- The broadcast built by `Client._broadcastTable` (lines 394-401) for
a (already normalized) table filename. -/
def broadcastTableMsg (tmpdir table : String) : Message :=
  ⟨"table.load.fits",
   [("name", SValue.str table),
    ("table-id", SValue.str table),
    ("url", SValue.str ("file://" ++ tmpdir ++ "/" ++ table))]⟩

/-- Embeds the state effect and broadcast of `Client.send` (lines
298-350): the name defaults to `'var.fits'`, is normalized, the table
is recorded in `self.tables` with its `file://` url, and
`_broadcastTable` is called on the normalized name. -/
def Client.send (tmpdir : String) (st : ClientState) (k? : Option String) :
    ClientState × Message :=
  let k := normFits (k?.getD "var.fits")
  let fullk := tmpdir ++ "/" ++ k
  let entry : Params := [("name", SValue.str k), ("url", SValue.str ("file://" ++ fullk))]
  ({ st with tables := insertTable st.tables k entry },
   broadcastTableMsg tmpdir k)

/-- The row argument of `Client.sendrows`: a list/tuple/ndarray of
indices, or a single scalar index. -/
inductive RowArg where
  | single : Int → RowArg
  | many : List Int → RowArg
deriving DecidableEq, Repr

/-- The message built by `Client.sendrows` (lines 443-497): the table
name is normalized, and a scalar index yields `table.highlight.row`
with `row = str(idx)` while a sequence yields `table.select.rowList`
with `row-list = [str(i) for i in idx]`. -/
def sendrowsMsg (tmpdir table : String) (idx : RowArg) : Message :=
  let t := normFits table
  let fullt := tmpdir ++ "/" ++ t
  match idx with
  | RowArg.single n =>
      ⟨"table.highlight.row",
       [("name", SValue.str t),
        ("table-id", SValue.str t),
        ("url", SValue.str ("file://" ++ fullt)),
        ("row", SValue.str (toString n))]⟩
  | RowArg.many ns =>
      ⟨"table.select.rowList",
       [("name", SValue.str t),
        ("table-id", SValue.str t),
        ("url", SValue.str ("file://" ++ fullt)),
        ("row-list", SValue.list (ns.map toString))]⟩

/-- Modelled from the spec: segment-wise pattern matching of the Message
Router's `matches` (the implementation lives in the external `sampy`
library, absent from this repository).  A lone trailing `*` segment
matches any remaining segments, including none; otherwise segments must
be equal one-for-one. -/
def segMatch : List String → List String → Bool
  | [], ts => ts.isEmpty
  | [p], ts => p == "*" || ts == [p]
  | p :: ps, t :: ts => (p == t) && segMatch ps ts
  | _ :: _ :: _, [] => false

/-- Modelled from the spec: the Message Router operation
`matches(pattern, mType)` splits both strings on `.` and compares
segment-wise via `segMatch` (named `mtypeMatches` here because
`matches` is a Lean keyword). -/
def mtypeMatches (pattern mType : String) : Bool :=
  segMatch (pattern.splitOn ".") (mType.splitOn ".")

/-- The declarative matching relation in the claim's words: when the
pattern's last segment is `*`, every non-wildcard segment of the
pattern equals the corresponding segment of the type and the `*`
absorbs all remaining segments (possibly none); otherwise the segment
lists agree exactly. -/
def specMatches (pattern mType : String) : Prop :=
  let ps := pattern.splitOn "."
  let ts := mType.splitOn "."
  if ps.getLast? = Option.some "*" then
    ∃ rest, ts = ps.dropLast ++ rest
  else
    ps = ts

/-- The params shapes under which `receiveCall`'s body cannot raise:
`table.load.fits` needs a string `name` entry; `table.select.rowList`
needs a `url` entry and a `row-list` entry whose `np.intp` conversion
yields an integer array (a single string converts to a 0-d scalar, and
`len(idx)` at sampc.py line 432 then raises TypeError); every other
mType is handled by the catch-all print branch. -/
def callParamsOK (mType : String) (params : Params) : Prop :=
  (mType = "table.load.fits" →
    ∃ name, List.lookup "name" params = Option.some (SValue.str name)) ∧
  (mType = "table.select.rowList" →
    ∃ u v ns, List.lookup "url" params = Option.some u ∧
      List.lookup "row-list" params = Option.some v ∧
      npIntp v = Option.some (PyVal.intList ns))

/-- The session state after successfully handling a first
`table.select.rowList` message carrying row-list ["1","2","3"]. -/
def stAfterFirstRowList : ClientState :=
  { initClient with
    rowlist := PyVal.intList [1, 2, 3]
    lastMessage := Option.some (selectedRowsMsg "pk" "sender"
      "table.select.rowList"
      [("url", SValue.str "u"), ("row-list", SValue.list ["1", "2", "3"])] []) }

/-- Core equivalence behind C1: `segMatch` agrees with the declarative
description (trailing `*` absorbs any remaining segments, otherwise the
segment lists must be equal). -/
theorem segMatch_eq_true_iff (ps ts : List String) :
    segMatch ps ts = true ↔
      (if ps.getLast? = Option.some "*" then ∃ rest, ts = ps.dropLast ++ rest
       else ps = ts) := by
  induction ps generalizing ts with
  | nil =>
      simp [segMatch, List.isEmpty_iff]
  | cons p ps ih =>
      cases ps with
      | nil =>
          by_cases hp : p = "*"
          · subst hp
            simp [segMatch]
          · simp [segMatch, hp]
            exact comm
      | cons q ps' =>
          cases ts with
          | nil =>
              simp [segMatch, List.getLast?_cons_cons, List.dropLast_cons₂]
          | cons t ts' =>
              have hstep : segMatch (p :: q :: ps') (t :: ts') =
                  ((p == t) && segMatch (q :: ps') ts') := by
                simp only [segMatch]
              rw [hstep, Bool.and_eq_true, beq_iff_eq, ih ts',
                List.getLast?_cons_cons, List.dropLast_cons₂]
              by_cases hst : (q :: ps').getLast? = Option.some "*"
              · simp only [hst, if_true, List.cons_append, List.cons.injEq]
                constructor
                · rintro ⟨hpt, rest, hrest⟩
                  exact ⟨rest, hpt.symm, hrest⟩
                · rintro ⟨rest, hpt, hrest⟩
                  exact ⟨hpt.symm, rest, hrest⟩
              · simp only [hst, if_false, List.cons.injEq]

/-- C1: `mtypeMatches P T` returns true iff every non-wildcard
dot-segment of `P` equals the corresponding dot-segment of `T`, and a
trailing `*` segment of `P` absorbs all remaining segments of `T`,
including zero extra segments; segments are compared by literal string
equality, so matching is case-sensitive and admits no partial-segment
wildcards. -/
theorem mtypeMatches_iff_specMatches (pattern mType : String) :
    mtypeMatches pattern mType = true ↔ specMatches pattern mType :=
  segMatch_eq_true_iff (pattern.splitOn ".") (mType.splitOn ".")

/-- Evaluation lemma: `getrows` on a `table.highlight.row` message with
a `url` entry and a row value that `np.intp` accepts. -/
theorem getrows_highlight_eq (st : ClientState) (privateKey senderID : String)
    (params extra : Params) (u v : SValue) (idx : PyVal)
    (hu : List.lookup "url" params = Option.some u)
    (hv : List.lookup "row" params = Option.some v)
    (hi : npIntp v = Option.some idx) :
    getrows st privateKey senderID "table.highlight.row" params extra =
      Option.some { st with
        crow := idx
        lastMessage := Option.some (selectedRowsMsg privateKey senderID "table.highlight.row" params extra) } := by
  simp [getrows, getrowsBranch, hu, hv, hi]

/-- Evaluation lemma: `getrows` on a `table.select.rowList` message with
a `url` entry and a row-list value whose conversion is an integer
array (so the `len(idx)` status line cannot raise). -/
theorem getrows_rowList_eq (st : ClientState) (privateKey senderID : String)
    (params extra : Params) (u v : SValue) (ns : List Int)
    (hu : List.lookup "url" params = Option.some u)
    (hv : List.lookup "row-list" params = Option.some v)
    (hi : npIntp v = Option.some (PyVal.intList ns)) :
    getrows st privateKey senderID "table.select.rowList" params extra =
      Option.some { st with
        rowlist := PyVal.intList ns
        lastMessage := Option.some (selectedRowsMsg privateKey senderID "table.select.rowList" params extra) } := by
  simp [getrows, getrowsBranch, hu, hv, hi]

/-- Inversion: a successful `getrows` run on `table.highlight.row`
found `url` and a convertible `row` param, and only set `crow` and
`lastMessage`. -/
theorem getrows_highlight_inversion (st : ClientState)
    (privateKey senderID : String) (params extra : Params) (st' : ClientState)
    (h : getrows st privateKey senderID "table.highlight.row" params extra =
      Option.some st') :
    ∃ u v idx, List.lookup "url" params = Option.some u ∧
      List.lookup "row" params = Option.some v ∧
      npIntp v = Option.some idx ∧
      st' = { st with
        crow := idx
        lastMessage := Option.some (selectedRowsMsg privateKey senderID
          "table.highlight.row" params extra) } := by
  simp only [getrows, getrowsBranch, beq_self_eq_true, if_true] at h
  cases hu : List.lookup "url" params with
  | none =>
      simp only [hu] at h
      exact Option.noConfusion h
  | some u =>
      simp only [hu] at h
      cases hv : List.lookup "row" params with
      | none =>
          simp only [hv] at h
          exact Option.noConfusion h
      | some v =>
          simp only [hv] at h
          cases hi : npIntp v with
          | none =>
              simp only [hi] at h
              exact Option.noConfusion h
          | some idx =>
              simp only [hi, Option.some.injEq] at h
              exact ⟨u, v, idx, rfl, rfl, hi, h.symm⟩

/-- Inversion: a successful `getrows` run on `table.select.rowList`
found `url` and a `row-list` param converting to an integer array (a
scalar conversion would have raised at the `len(idx)` status line), and
only set `rowlist` and `lastMessage`. -/
theorem getrows_rowList_inversion (st : ClientState)
    (privateKey senderID : String) (params extra : Params) (st' : ClientState)
    (h : getrows st privateKey senderID "table.select.rowList" params extra =
      Option.some st') :
    ∃ u v ns, List.lookup "url" params = Option.some u ∧
      List.lookup "row-list" params = Option.some v ∧
      npIntp v = Option.some (PyVal.intList ns) ∧
      st' = { st with
        rowlist := PyVal.intList ns
        lastMessage := Option.some (selectedRowsMsg privateKey senderID
          "table.select.rowList" params extra) } := by
  simp only [getrows, getrowsBranch] at h
  rw [if_neg (by simp), if_pos (by simp)] at h
  cases hu : List.lookup "url" params with
  | none =>
      simp only [hu] at h
      exact Option.noConfusion h
  | some u =>
      simp only [hu] at h
      cases hv : List.lookup "row-list" params with
      | none =>
          simp only [hv] at h
          exact Option.noConfusion h
      | some v =>
          simp only [hv] at h
          cases hi : npIntp v with
          | none =>
              simp only [hi] at h
              exact Option.noConfusion h
          | some idx =>
              cases idx with
              | intList ns =>
                  simp only [hi, Option.some.injEq] at h
                  exact ⟨u, v, ns, rfl, rfl, hi, h.symm⟩
              | none =>
                  simp only [hi] at h
                  exact Option.noConfusion h
              | int n =>
                  simp only [hi] at h
                  exact Option.noConfusion h
              | emptyDict =>
                  simp only [hi] at h
                  exact Option.noConfusion h

/-- C2 counterexample: an inbound `table.highlight.row` message whose
params carry the row index as the string "7" but no `url` entry makes
`getrows` raise a KeyError at `params['url']` before any assignment, so
no resulting state exists and `crow` is never set to 7. -/
theorem getrows_row7_without_url_counterexample :
    ¬ ∃ st', getrows initClient "pk" "sender" "table.highlight.row"
        [("row", SValue.str "7")] [] = Option.some st' ∧
          st'.crow = PyVal.int 7 := by
  rintro ⟨st', h, -⟩
  rw [show getrows initClient "pk" "sender" "table.highlight.row"
        [("row", SValue.str "7")] [] = Option.none from rfl] at h
  exact Option.noConfusion h

/-- C2 (amended): for every inbound `table.highlight.row` message whose
params carry a `url` entry and the row index as a decimal string that
`np.intp` accepts (it parses and fits the intp range), the
row-selection handler converts the string to an integer and stores it
in the session-local `crow`; in particular row "7" yields integer 7. -/
theorem getrows_highlight_sets_crow (st : ClientState)
    (privateKey senderID : String) (params extra : Params)
    (u : SValue) (s : String) (n : Int)
    (hu : List.lookup "url" params = Option.some u)
    (hr : List.lookup "row" params = Option.some (SValue.str s))
    (hn : pyInt s = Option.some n) :
    ∃ st', getrows st privateKey senderID "table.highlight.row" params extra =
        Option.some st' ∧ st'.crow = PyVal.int n := by
  refine ⟨_, getrows_highlight_eq st privateKey senderID params extra u
    (SValue.str s) (PyVal.int n) hu hr ?_, rfl⟩
  simp [npIntp, hn]

/-- C2 witness: the concrete scenario with row string "7". -/
theorem getrows_highlight_sets_crow_witness :
    ∃ st', getrows initClient "pk" "sender" "table.highlight.row"
        [("url", SValue.str "file:///tmp/t.fits"), ("row", SValue.str "7")] [] =
        Option.some st' ∧ st'.crow = PyVal.int 7 :=
  getrows_highlight_sets_crow initClient "pk" "sender"
    [("url", SValue.str "file:///tmp/t.fits"), ("row", SValue.str "7")] []
    (SValue.str "file:///tmp/t.fits") "7" 7 rfl rfl (by decide)

/-- C3 counterexample: an inbound `table.select.rowList` message whose
params carry `row-list = ["1","2","3"]` but no `url` entry makes
`getrows` raise a KeyError at `params['url']` before any assignment, so
no resulting state exists and `rowlist` is never set to [1,2,3]. -/
theorem getrows_rowList_without_url_counterexample :
    ¬ ∃ st', getrows initClient "pk" "sender" "table.select.rowList"
        [("row-list", SValue.list ["1", "2", "3"])] [] = Option.some st' ∧
          st'.rowlist = PyVal.intList [1, 2, 3] := by
  rintro ⟨st', h, -⟩
  rw [show getrows initClient "pk" "sender" "table.select.rowList"
        [("row-list", SValue.list ["1", "2", "3"])] [] = Option.none from rfl] at h
  exact Option.noConfusion h

/-- C3 (amended): for every inbound `table.select.rowList` message whose
params carry a `url` entry and `row-list` as a sequence of decimal
strings that `np.intp` accepts (each parses and fits the intp range),
the handler converts each element to an integer, preserving order, and
stores the result in the session-local `rowlist`; in particular
["1","2","3"] yields [1,2,3]. -/
theorem getrows_rowList_sets_rowlist (st : ClientState)
    (privateKey senderID : String) (params extra : Params)
    (u : SValue) (ss : List String) (ns : List Int)
    (hu : List.lookup "url" params = Option.some u)
    (hr : List.lookup "row-list" params = Option.some (SValue.list ss))
    (hn : ss.mapM pyInt = Option.some ns) :
    ∃ st', getrows st privateKey senderID "table.select.rowList" params extra =
        Option.some st' ∧ st'.rowlist = PyVal.intList ns := by
  refine ⟨_, getrows_rowList_eq st privateKey senderID params extra u
    (SValue.list ss) ns hu hr ?_, rfl⟩
  simp only [npIntp]
  rw [hn]
  rfl

/-- C3 witness: the concrete scenario with row-list ["1","2","3"]. -/
theorem getrows_rowList_sets_rowlist_witness :
    ∃ st', getrows initClient "pk" "sender" "table.select.rowList"
        [("url", SValue.str "file:///tmp/t.fits"),
         ("row-list", SValue.list ["1", "2", "3"])] [] =
        Option.some st' ∧ st'.rowlist = PyVal.intList [1, 2, 3] :=
  getrows_rowList_sets_rowlist initClient "pk" "sender"
    [("url", SValue.str "file:///tmp/t.fits"),
     ("row-list", SValue.list ["1", "2", "3"])] []
    (SValue.str "file:///tmp/t.fits") ["1", "2", "3"] [1, 2, 3] rfl rfl (by decide)

/-- C4 counterexample: after a sequence of two `table.select.rowList`
messages whose second lacks a `url` entry, the handler raises on the
second message and the stored row-list still holds the first message's
conversion [1,2,3], not the most recent message's ["4","5"]. -/
theorem rowList_sequence_counterexample :
    getrows initClient "pk" "sender" "table.select.rowList"
        [("url", SValue.str "u"), ("row-list", SValue.list ["1", "2", "3"])] [] =
      Option.some stAfterFirstRowList ∧
    getrows stAfterFirstRowList "pk" "sender" "table.select.rowList"
        [("row-list", SValue.list ["4", "5"])] [] = Option.none ∧
    stAfterFirstRowList.rowlist ≠ PyVal.intList [4, 5] := by
  refine ⟨by decide, rfl, by decide⟩

/-- C4: receiving `table.select.rowList` replaces the stored row list
wholesale: whatever the session's prior `rowlist` state (any previously
accumulated value), the state after handling the message holds exactly
the conversion of this message's `row-list` parameter, never a merge
with the prior value. -/
theorem getrows_rowList_replaces_wholesale (st : ClientState)
    (privateKey senderID : String) (params extra : Params)
    (u v : SValue) (idx : PyVal) (st' : ClientState)
    (_hu : List.lookup "url" params = Option.some u)
    (hv : List.lookup "row-list" params = Option.some v)
    (hi : npIntp v = Option.some idx)
    (h : getrows st privateKey senderID "table.select.rowList" params extra =
      Option.some st') :
    st'.rowlist = idx := by
  obtain ⟨u2, v2, ns, hu2, hv2, hi2, rfl⟩ :=
    getrows_rowList_inversion st privateKey senderID params extra st' h
  have hvv : v2 = v := Option.some.inj (hv2.symm.trans hv)
  subst hvv
  have hidx : PyVal.intList ns = idx :=
    Option.some.inj (hi2.symm.trans hi)
  exact hidx

/-- C4 witness: a session whose `rowlist` already holds [99] still ends
up with exactly [1,2,3] after the message. -/
theorem getrows_rowList_replaces_wholesale_witness :
    ({ initClient with rowlist := PyVal.intList [99] } : ClientState).rowlist =
        PyVal.intList [99] ∧
    ClientState.rowlist
      { initClient with
        rowlist := PyVal.intList [1, 2, 3]
        lastMessage := Option.some (selectedRowsMsg "pk" "sender"
          "table.select.rowList"
          [("url", SValue.str "u"), ("row-list", SValue.list ["1", "2", "3"])] []) } =
      PyVal.intList [1, 2, 3] := by
  constructor
  · rfl
  · exact getrows_rowList_replaces_wholesale
      { initClient with rowlist := PyVal.intList [99] } "pk" "sender"
      [("url", SValue.str "u"), ("row-list", SValue.list ["1", "2", "3"])] []
      (SValue.str "u") (SValue.list ["1", "2", "3"]) (PyVal.intList [1, 2, 3]) _
      rfl rfl (by decide) (by decide)

/-- C5: the two row-selection inbound message types are dispatched to
two distinct bound handler callbacks (`getrows` as the notification
handler for `table.highlight.row`, `receiveCall` as the call handler
for `table.select.rowList`), and each message type updates only its own
session-local state variable: highlighting a row sets `crow` and leaves
`rowlist` untouched, while a row list sets `rowlist` and leaves `crow`
untouched. -/
theorem rowSelection_distinct_handlers :
    List.lookup "table.highlight.row" notificationBindings =
        Option.some Handler.getrows ∧
    List.lookup "table.select.rowList" callBindings =
        Option.some Handler.receiveCall ∧
    Handler.getrows ≠ Handler.receiveCall ∧
    (∀ st privateKey senderID params extra st',
      getrows st privateKey senderID "table.highlight.row" params extra =
          Option.some st' →
      st'.rowlist = st.rowlist ∧ ∃ v idx,
        List.lookup "row" params = Option.some v ∧
        npIntp v = Option.some idx ∧ st'.crow = idx) ∧
    (∀ st privateKey senderID params extra st',
      getrows st privateKey senderID "table.select.rowList" params extra =
          Option.some st' →
      st'.crow = st.crow ∧ ∃ v idx,
        List.lookup "row-list" params = Option.some v ∧
        npIntp v = Option.some idx ∧ st'.rowlist = idx) := by
  refine ⟨rfl, rfl, by simp, ?_, ?_⟩
  · intro st privateKey senderID params extra st' h
    obtain ⟨u, v, idx, -, hv, hi, rfl⟩ :=
      getrows_highlight_inversion st privateKey senderID params extra st' h
    exact ⟨rfl, v, idx, hv, hi, rfl⟩
  · intro st privateKey senderID params extra st' h
    obtain ⟨u, v, ns, -, hv, hi, rfl⟩ :=
      getrows_rowList_inversion st privateKey senderID params extra st' h
    exact ⟨rfl, v, PyVal.intList ns, hv, hi, rfl⟩

/-- C5 witness: concrete highlight and row-list messages exercising
both conjuncts with their hypotheses discharged. -/
theorem rowSelection_distinct_handlers_witness :
    (ClientState.rowlist ⟨[], PyVal.emptyDict, PyVal.int 7,
        Option.some (selectedRowsMsg "pk" "sender" "table.highlight.row"
          [("url", SValue.str "u"), ("row", SValue.str "7")] [])⟩ =
      initClient.rowlist) ∧
    (ClientState.crow ⟨[], PyVal.intList [1], PyVal.none,
        Option.some (selectedRowsMsg "pk" "sender" "table.select.rowList"
          [("url", SValue.str "u"), ("row-list", SValue.list ["1"])] [])⟩ =
      initClient.crow) := by
  constructor
  · exact (rowSelection_distinct_handlers.2.2.2.1 initClient "pk" "sender"
      [("url", SValue.str "u"), ("row", SValue.str "7")] []
      ⟨[], PyVal.emptyDict, PyVal.int 7,
        Option.some (selectedRowsMsg "pk" "sender" "table.highlight.row"
          [("url", SValue.str "u"), ("row", SValue.str "7")] [])⟩
      (by decide)).1
  · exact (rowSelection_distinct_handlers.2.2.2.2 initClient "pk" "sender"
      [("url", SValue.str "u"), ("row-list", SValue.list ["1"])] []
      ⟨[], PyVal.intList [1], PyVal.none,
        Option.some (selectedRowsMsg "pk" "sender" "table.select.rowList"
          [("url", SValue.str "u"), ("row-list", SValue.list ["1"])] [])⟩
      (by decide)).1

/-- C6 counterexample: an inbound call with mType `table.load.fits`
whose params carry a `url` but no `name` entry makes `receiveCall`
raise a KeyError at `params['name']` before reaching `ereply`, so no
reply of any status is produced and the caller times out. -/
theorem receiveCall_missing_name_counterexample :
    ¬ ∃ st' r, receiveCall initClient "pk" "sender" "m0" "table.load.fits"
        [("url", SValue.str "file:///tmp/t.fits")] [] =
        Option.some (st', r) := by
  rintro ⟨st', r, h⟩
  rw [show receiveCall initClient "pk" "sender" "m0" "table.load.fits"
        [("url", SValue.str "file:///tmp/t.fits")] [] = Option.none from rfl] at h
  exact Option.noConfusion h

/-- C6 (amended): for every inbound call whose params satisfy the
handler's own requirements (`callParamsOK`: a string `name` entry for
`table.load.fits`; a `url` entry and a `row-list` converting to an
integer array for `table.select.rowList`; nothing otherwise),
`receiveCall` reaches its final statement and replies to the caller
with status OK and a result mapping, whatever the mType (known or
unknown). -/
theorem receiveCall_always_replies (st : ClientState)
    (privateKey senderID msgID mType : String) (params extra : Params)
    (hOK : callParamsOK mType params) :
    ∃ st', receiveCall st privateKey senderID msgID mType params extra =
        Option.some (st', okReply msgID) ∧
      (okReply msgID).status = SAMP_STATUS_OK := by
  by_cases h1 : mType = "table.load.fits"
  · subst h1
    obtain ⟨name, hn⟩ := hOK.1 rfl
    exact ⟨{ st with tables := insertTable st.tables name params },
      by simp [receiveCall, hn], rfl⟩
  · by_cases h2 : mType = "table.select.rowList"
    · subst h2
      obtain ⟨u, v, ns, hu, hv, hi⟩ := hOK.2 rfl
      refine ⟨{ st with
          rowlist := PyVal.intList ns
          lastMessage := Option.some (selectedRowsMsg privateKey senderID
            "table.select.rowList" params extra) }, ?_, rfl⟩
      simp only [receiveCall]
      rw [if_neg (by simp), if_pos (by simp),
        getrows_rowList_eq st privateKey senderID params extra u v ns hu hv hi]
    · exact ⟨st, by simp [receiveCall, beq_iff_eq, h1, h2], rfl⟩

/-- C6 witness: a well-formed `table.load.fits` call is answered with
the OK reply. -/
theorem receiveCall_always_replies_witness :
    ∃ st', receiveCall initClient "pk" "sender" "m1" "table.load.fits"
        [("name", SValue.str "t.fits")] [] =
        Option.some (st', okReply "m1") ∧
      (okReply "m1").status = SAMP_STATUS_OK :=
  receiveCall_always_replies initClient "pk" "sender" "m1" "table.load.fits"
    [("name", SValue.str "t.fits")] []
    ⟨fun _ => ⟨"t.fits", rfl⟩, fun hceq => absurd hceq (by decide)⟩

/-- C7: every table-exchange message the client emits conforms to the
declared vocabulary.  `send` broadcasts `table.load.fits` whose params
are exactly `name`, `table-id` and `url`, with name = table-id = the
normalized filename and url = `file://` plus the temp-directory path;
`sendrows` with a scalar index emits `table.highlight.row` whose `row`
param is the decimal string of the index, and with a sequence emits
`table.select.rowList` whose `row-list` param is the list of decimal
strings. -/
theorem outbound_vocabulary (tmpdir : String) (st : ClientState)
    (k? : Option String) (table : String) (n : Int) (ns : List Int) :
    ((Client.send tmpdir st k?).2.mtype = "table.load.fits" ∧
      (Client.send tmpdir st k?).2.params =
        [("name", SValue.str (normFits (k?.getD "var.fits"))),
         ("table-id", SValue.str (normFits (k?.getD "var.fits"))),
         ("url", SValue.str
            ("file://" ++ tmpdir ++ "/" ++ normFits (k?.getD "var.fits")))]) ∧
    ((sendrowsMsg tmpdir table (RowArg.single n)).mtype =
        "table.highlight.row" ∧
      List.lookup "row" (sendrowsMsg tmpdir table (RowArg.single n)).params =
        Option.some (SValue.str (toString n))) ∧
    ((sendrowsMsg tmpdir table (RowArg.many ns)).mtype =
        "table.select.rowList" ∧
      List.lookup "row-list" (sendrowsMsg tmpdir table (RowArg.many ns)).params =
        Option.some (SValue.list (ns.map toString))) := by
  refine ⟨⟨rfl, rfl⟩, ⟨rfl, ?_⟩, ⟨rfl, ?_⟩⟩
  · simp [sendrowsMsg, List.lookup]
  · simp [sendrowsMsg, List.lookup]

/-- C8: table payload transport is by reference.  Receiving a
`table.load.fits` call stores exactly the envelope's params (with their
`url` reference) into `tables`, touching nothing else and performing no
fetch (the handler's type takes no fetch environment at all); the
referenced data is produced by the fetch environment only when `get` is
invoked on a stored name, and then only from the stored `url`. -/
theorem table_by_reference (st : ClientState)
    (privateKey senderID msgID : String) (params extra : Params) (name : String)
    (hname : List.lookup "name" params = Option.some (SValue.str name)) :
    receiveCall st privateKey senderID msgID "table.load.fits" params extra =
      Option.some ({ st with tables := insertTable st.tables name params },
        okReply msgID) ∧
    (∀ (α : Type) (fetchRead : String → Option α) (st2 : ClientState)
        (k : String) (tab : Params) (u : String),
      List.lookup k st2.tables = Option.some tab →
      List.lookup "url" tab = Option.some (SValue.str u) →
      Client.get fetchRead st2 k = (fetchRead u).map Option.some) := by
  constructor
  · simp [receiveCall, hname]
  · intro α fetchRead st2 k tab u h1 h2
    cases hf : fetchRead u <;> simp [Client.get, h1, h2, hf]

/-- C8 witness: a concrete stored table is fetched from its stored url. -/
theorem table_by_reference_witness :
    receiveCall initClient "pk" "sender" "m2" "table.load.fits"
        [("name", SValue.str "t.fits"), ("url", SValue.str "file:///x")] [] =
      Option.some ({ initClient with
          tables := insertTable initClient.tables "t.fits"
            [("name", SValue.str "t.fits"), ("url", SValue.str "file:///x")] },
        okReply "m2") ∧
    Client.get (fun _ => Option.some (5 : Nat))
        ⟨[("t.fits", [("url", SValue.str "file:///x")])],
          PyVal.emptyDict, PyVal.none, Option.none⟩ "t.fits" =
      ((fun (_ : String) => Option.some (5 : Nat)) "file:///x").map Option.some := by
  have h := table_by_reference initClient "pk" "sender" "m2"
    [("name", SValue.str "t.fits"), ("url", SValue.str "file:///x")] [] "t.fits" rfl
  exact ⟨h.1, h.2 Nat (fun _ => Option.some (5 : Nat))
    ⟨[("t.fits", [("url", SValue.str "file:///x")])],
      PyVal.emptyDict, PyVal.none, Option.none⟩
    "t.fits" [("url", SValue.str "file:///x")] "file:///x" rfl rfl⟩

/-- C9: for a key absent from `tables`, `get` (and the indexing form
`c[k]` via `__getitem__`) returns Python `None` without raising: in the
embedding the result is `some none` (no exception, value `None`), for
every fetch environment, so no fetch occurs and no NotFoundError-style
failure is observable; `Client.get` takes and returns no state, which
embeds the Python body's absence of any assignment. -/
theorem get_unknown_key_returns_none {α : Type} (fetchRead : String → Option α)
    (st : ClientState) (k : String)
    (h : List.lookup k st.tables = Option.none) :
    Client.get fetchRead st k = Option.some Option.none ∧
    Client.getitem fetchRead st k = Option.some Option.none := by
  constructor <;> simp [Client.get, Client.getitem, h]

/-- C9 witness: an unregistered table name on the initial state. -/
theorem get_unknown_key_returns_none_witness :
    Client.get (fun _ => Option.some (0 : Nat)) initClient "missing.fits" =
        Option.some Option.none ∧
    Client.getitem (fun _ => Option.some (0 : Nat)) initClient "missing.fits" =
        Option.some Option.none :=
  get_unknown_key_returns_none (fun _ => Option.some (0 : Nat)) initClient
    "missing.fits" rfl

/-- The Python test `k[-5:] == '.fits'` holds exactly when `.fits` is a
suffix of the string. -/
theorem pyLast5_eq_iff_suffix (t : String) :
    pyLast5 t = ".fits" ↔ (".fits" : String).data <:+ t.data := by
  constructor
  · intro h
    have hd : t.data.drop (t.data.length - 5) = (".fits" : String).data :=
      congrArg String.data h
    rw [← hd]
    exact List.drop_suffix _ _
  · rintro ⟨pre, hpre⟩
    unfold pyLast5
    rw [← hpre, List.length_append,
      show ((".fits" : String).data.length = 5) from rfl,
      Nat.add_sub_cancel, List.drop_left]

/-- Every string `normFits` produces ends with `.fits`. -/
theorem normFits_endsWith_fits (t : String) :
    (".fits" : String).data <:+ (normFits t).data := by
  unfold normFits
  by_cases h : pyLast5 t = ".fits"
  · rw [if_neg (not_not_intro h)]
    exact (pyLast5_eq_iff_suffix t).1 h
  · rw [if_pos h,
      show ((t ++ ".fits").data = t.data ++ (".fits" : String).data) from rfl]
    exact List.suffix_append _ _

/-- C10: table names are normalized to end in `.fits` at the public
interface.  `send` defaults a missing name to `var.fits`; the shared
normalization appends `.fits` exactly when the name does not already
end in it; every key `send` inserts into `tables` beyond the existing
ones ends with `.fits`; and `sendrows` applies the same `normFits`
normalization to its table argument. -/
theorem send_writes_fits_keys (tmpdir : String) (st : ClientState)
    (k? : Option String) (t k' : String) (idx : RowArg) :
    normFits ((Option.none : Option String).getD "var.fits") = "var.fits" ∧
    (pyLast5 t ≠ ".fits" → normFits t = t ++ ".fits") ∧
    (".fits" : String).data <:+ (normFits t).data ∧
    (k' ∈ (Client.send tmpdir st k?).1.tables.map Prod.fst →
      k' ∈ st.tables.map Prod.fst ∨ (".fits" : String).data <:+ k'.data) ∧
    List.lookup "name" (sendrowsMsg tmpdir t idx).params =
      Option.some (SValue.str (normFits t)) := by
  refine ⟨by decide, fun h => if_pos h, normFits_endsWith_fits t, ?_, ?_⟩
  · intro hk
    simp only [Client.send, insertTable, List.map_cons, List.mem_cons] at hk
    rcases hk with rfl | hk
    · exact Or.inr (normFits_endsWith_fits _)
    · exact Or.inl hk
  · cases idx <;> rfl

/-- C10 witness: `send` with no name writes key `var.fits`; a bare name
`a` is normalized by appending `.fits`. -/
theorem send_writes_fits_keys_witness :
    normFits "a" = "a" ++ ".fits" ∧
    ("var.fits" ∈ (Client.send "/tmp" initClient Option.none).1.tables.map Prod.fst ∧
      ("var.fits" ∈ initClient.tables.map Prod.fst ∨
        (".fits" : String).data <:+ ("var.fits" : String).data)) := by
  refine ⟨?_, by decide, ?_⟩
  · exact (send_writes_fits_keys "/tmp" initClient Option.none "a" "var.fits"
      (RowArg.single 0)).2.1 (by decide)
  · exact (send_writes_fits_keys "/tmp" initClient Option.none "a" "var.fits"
      (RowArg.single 0)).2.2.2.1 (by decide)
